import Mathlib

/-!
Verification of the inventory-tracking HTTP service (`src/index.js`).

The service keeps an ordered collection of inventory items in a single JSON
document and exposes register / list / get / update / replace-photo / delete /
search operations.  This file shallowly embeds the persistence core and the
route handlers: the backing document becomes an explicit `Document` value,
each route handler becomes a pure function from its request data and the
current document to a response and the next document, and JavaScript
peculiarities (truthiness, nullish coalescing, `String.prototype.trim`) are
embedded explicitly.
-/

/-- A JavaScript value position that can be absent (`undefined`), an explicit
JSON `null`, or an actual value; request-body fields are read this way. -/
inductive FormField (α : Type) where
  | absent
  | null
  | val (a : α)
deriving DecidableEq, Repr

/-- JS nullish coalescing `x ?? y`: `undefined` and `null` fall through to the
default, any other value (including `""`) is kept. -/
def FormField.nullishOr : FormField String → String → String
  | .val s, _ => s
  | _, d => d

/-- JS truthiness of a string-valued field: `undefined`, `null` and the empty
string are falsy; every non-empty string is truthy. -/
def FormField.truthy : FormField String → Bool
  | .val s => !(s == "")
  | _ => false

/-- JS `description || ""`: a missing, null or empty description collapses to
the empty string (mirrors the truthiness-based `||`, under which `""` is
falsy). -/
def FormField.orEmpty : FormField String → String
  | .val s => if s == "" then "" else s
  | _ => ""

/-- A JSON body field that is either absent or a string value (the shape the
route documentation gives for `PUT /inventory/{id}` bodies). -/
def FormField.ofOption : Option String → FormField String
  | none => .absent
  | some s => .val s

/-- The code-point class removed by ECMAScript `TrimString`, i.e. WhiteSpace
union LineTerminator: tab, line feed, vertical tab, form feed, carriage
return, space, no-break space, zero-width no-break space U+FEFF, the Unicode
space separators U+1680, U+2000 to U+200A, U+202F, U+205F and U+3000, and the
line separators U+2028 and U+2029. -/
def isJsWhitespace (c : Char) : Bool :=
  c == ' ' || c == '\t' || c == '\n' || c == '\r' ||
  c == Char.ofNat 11 || c == Char.ofNat 12 || c == Char.ofNat 160 ||
  c == Char.ofNat 0x1680 ||
  (0x2000 ≤ c.toNat && c.toNat ≤ 0x200A) ||
  c == Char.ofNat 0x2028 || c == Char.ofNat 0x2029 ||
  c == Char.ofNat 0x202F || c == Char.ofNat 0x205F ||
  c == Char.ofNat 0x3000 || c == Char.ofNat 0xFEFF

/-- JS `s.trim()`: drop leading and trailing `TrimString` whitespace. -/
def jsTrim (s : String) : String :=
  (((s.data.dropWhile isJsWhitespace).reverse.dropWhile isJsWhitespace).reverse).asString

/-- One inventory record, as stored in `inventory.json`:
`{ id, name, description, photoPath }`, with `photoPath` either a file path
string or JSON `null`. -/
structure InventoryItem where
  id : String
  name : String
  description : String
  photoPath : Option String
deriving DecidableEq, Repr

/-- JS truthiness of the stored `photoPath` value (`null` and `""` falsy),
as tested by `item.photoPath ? ... : ...` and `!!item.photoPath`. -/
def optTruthy : Option String → Bool
  | some p => !(p == "")
  | none => false

/-- The state of the backing document `<cacheDir>/inventory.json`: it may be
missing, unreadable, readable but not valid JSON, or hold a serialized
collection. -/
inductive Document where
  | missing
  | unreadable
  | notJson
  | valid (items : List InventoryItem)
deriving DecidableEq, Repr

/-- `loadInventory()`: `JSON.parse(await fs.readFile(...))` inside
`try ... catch`, with every failure (missing file, read error, parse error)
collapsed to the empty collection. -/
def loadInventory : Document → List InventoryItem
  | .valid items => items
  | _ => []

/-- `saveInventory(inventory)`: overwrites the backing document with the
serialized collection. -/
def saveInventory (items : List InventoryItem) : Document :=
  .valid items

/-- `buildPhotoUrl(req, id)`:
the string `` `${req.protocol}://${req.get("host")}/inventory/${id}/photo` ``. -/
def buildPhotoUrl (protocol host id : String) : String :=
  protocol ++ "://" ++ host ++ "/inventory/" ++ id ++ "/photo"

/-- `item.photoPath ? buildPhotoUrl(req, item.id) : null`, the derived photo
URL used in responses. -/
def photoUrlOf (protocol host : String) (item : InventoryItem) : Option String :=
  match item.photoPath with
  | some p => if p == "" then none else some (buildPhotoUrl protocol host item.id)
  | none => none

/-- The data of a `POST /register` request: form fields `inventory_name` and
`description`, the multer-stored uploaded file path (if a `photo` file was
sent), and the request origin used for URL synthesis. -/
structure RegisterRequest where
  inventory_name : FormField String
  description : FormField String
  file : Option String
  protocol : String
  host : String
deriving DecidableEq, Repr

/-- The JSON body of a successful `POST /register` response. -/
structure RegisterResponse where
  message : String
  id : String
  name : String
  description : String
  photoUrl : Option String
deriving DecidableEq, Repr

/-- Outcome of `POST /register`: 400 `inventory_name is required`, or 201
with the created-item body. -/
inductive RegisterResult where
  | invalidInput
  | created (r : RegisterResponse)
deriving DecidableEq, Repr

/-- The item literal built by the register handler:
`{ id, name: inventory_name, description: description || "", photoPath: req.file ? req.file.path : null }`
with `id = Date.now().toString()` (here `Nat.repr` of the millisecond
timestamp). -/
def registerItem (now : Nat) (s : String) (descF : FormField String)
    (file : Option String) : InventoryItem :=
  { id := Nat.repr now
    name := s
    description := descF.orEmpty
    photoPath := file }

/-- The `POST /register` handler: reject when
`!inventory_name || inventory_name.trim() === ""`, otherwise load the
collection, append the new item and persist. -/
def registerOp (now : Nat) (req : RegisterRequest) (doc : Document) :
    RegisterResult × Document :=
  match req.inventory_name with
  | .val s =>
    if s == "" || jsTrim s == "" then
      (.invalidInput, doc)
    else
      let inventory := loadInventory doc
      let item := registerItem now s req.description req.file
      (.created
        { message := "Created"
          id := item.id
          name := item.name
          description := item.description
          photoUrl := photoUrlOf req.protocol req.host item },
       saveInventory (inventory ++ [item]))
  | _ => (.invalidInput, doc)

/-- One entry of the `GET /inventory` response (also the shape of
`GET /inventory/{id}`). -/
structure ItemView where
  id : String
  name : String
  description : String
  photoUrl : Option String
deriving DecidableEq, Repr

/-- The `GET /inventory` handler: map every stored item to its view with the
derived photo URL. -/
def listOp (protocol host : String) (doc : Document) : List ItemView :=
  (loadInventory doc).map fun item =>
    { id := item.id
      name := item.name
      description := item.description
      photoUrl := photoUrlOf protocol host item }

/-- The JSON body of a successful `PUT /inventory/{id}` response. -/
structure UpdateResponse where
  message : String
  id : String
  name : String
  description : String
deriving DecidableEq, Repr

/-- Outcome of `PUT /inventory/{id}`: 404 or 200 with the updated fields. -/
inductive UpdateResult where
  | notFound
  | ok (r : UpdateResponse)
deriving DecidableEq, Repr

/-- The in-place mutation performed by the update handler:
`item.name = req.body.name ?? item.name; item.description = req.body.description ?? item.description`. -/
def applyUpdate (nameF descF : FormField String) (item : InventoryItem) : InventoryItem :=
  { item with
      name := nameF.nullishOr item.name
      description := descF.nullishOr item.description }

/-- Replace the first item whose `id` matches with its image under `f`; this
is what mutating the object returned by `inventory.find(...)` does to the
array that is then saved. -/
def updateFirst (rid : String) (f : InventoryItem → InventoryItem) :
    List InventoryItem → List InventoryItem
  | [] => []
  | x :: xs => if x.id == rid then f x :: xs else x :: updateFirst rid f xs

/-- The `PUT /inventory/{id}` handler: find the item, overwrite the provided
fields with nullish coalescing, persist, respond with the updated fields. -/
def updateOp (rid : String) (nameF descF : FormField String) (doc : Document) :
    UpdateResult × Document :=
  let inventory := loadInventory doc
  match inventory.find? (fun x => x.id == rid) with
  | none => (.notFound, doc)
  | some item =>
    let item' := applyUpdate nameF descF item
    (.ok { message := "Updated", id := item'.id, name := item'.name,
           description := item'.description },
     saveInventory (updateFirst rid (applyUpdate nameF descF) inventory))

/-- Outcome of `PUT /inventory/{id}/photo`: 404, 400 `photo is required`, or
200 with the new photo URL. -/
inductive PhotoPutResult where
  | notFound
  | invalidInput
  | ok (photoUrl : String)
deriving DecidableEq, Repr

/-- The `PUT /inventory/{id}/photo` handler: find the item, require an
uploaded file, overwrite `photoPath`, persist. -/
def replacePhotoOp (protocol host rid : String) (file : Option String)
    (doc : Document) : PhotoPutResult × Document :=
  let inventory := loadInventory doc
  match inventory.find? (fun x => x.id == rid) with
  | none => (.notFound, doc)
  | some item =>
    match file with
    | none => (.invalidInput, doc)
    | some p =>
      (.ok (buildPhotoUrl protocol host item.id),
       saveInventory (updateFirst rid (fun it => { it with photoPath := some p }) inventory))

/-- Outcome of `DELETE /inventory/{id}`: 404 or 200 with the removed id. -/
inductive DeleteResult where
  | notFound
  | ok (id : String)
deriving DecidableEq, Repr

/-- Remove the first item whose `id` matches (`findIndex` + `splice(index, 1)`). -/
def removeFirst (rid : String) : List InventoryItem → List InventoryItem
  | [] => []
  | x :: xs => if x.id == rid then xs else x :: removeFirst rid xs

/-- The `DELETE /inventory/{id}` handler. -/
def deleteOp (rid : String) (doc : Document) : DeleteResult × Document :=
  let inventory := loadInventory doc
  match inventory.find? (fun x => x.id == rid) with
  | none => (.notFound, doc)
  | some removed =>
    (.ok removed.id, saveInventory (removeFirst rid inventory))

/-- The JSON body of a successful `POST /search` response. -/
structure SearchResponse where
  id : String
  name : String
  description : String
  hasPhoto : Bool
deriving DecidableEq, Repr

/-- Outcome of `POST /search`: 404 or 200. -/
inductive SearchResult where
  | notFound
  | ok (r : SearchResponse)
deriving DecidableEq, Repr

/-- The `POST /search` handler: find the item by the submitted `id` form
field; when `has_photo` is truthy and the item's `photoPath` is truthy,
append `"\nPhoto: " + buildPhotoUrl(req, id)` to the description in the
response; never saves the collection. -/
def searchOp (protocol host : String) (idF hasPhotoF : FormField String)
    (doc : Document) : SearchResult × Document :=
  let inventory := loadInventory doc
  match idF with
  | .val i =>
    match inventory.find? (fun x => x.id == i) with
    | none => (.notFound, doc)
    | some item =>
      let desc :=
        if hasPhotoF.truthy && optTruthy item.photoPath then
          item.description ++ "\nPhoto: " ++ buildPhotoUrl protocol host i
        else
          item.description
      (.ok { id := item.id, name := item.name, description := desc,
             hasPhoto := optTruthy item.photoPath }, doc)
  | _ => (.notFound, doc)

/-- A mutating request against the service, for reasoning about sequences of
operations. -/
inductive Request where
  | register (now : Nat) (req : RegisterRequest)
  | update (rid : String) (nameF descF : FormField String)
  | replacePhoto (protocol host rid : String) (file : Option String)
  | delete (rid : String)
deriving DecidableEq, Repr

/-- The document produced by handling one request (responses discarded). -/
def step : Request → Document → Document
  | .register now req, doc => (registerOp now req doc).2
  | .update rid n d, doc => (updateOp rid n d doc).2
  | .replacePhoto proto host rid file, doc => (replacePhotoOp proto host rid file doc).2
  | .delete rid, doc => (deleteOp rid doc).2

/-- The document after handling a sequence of requests in order. -/
def run (rs : List Request) (doc : Document) : Document :=
  rs.foldl (fun d r => step r d) doc

/-- The document after a sequence of `POST /register` requests, each tagged
with its `Date.now()` millisecond timestamp. -/
def registerRun (l : List (Nat × RegisterRequest)) (doc : Document) : Document :=
  l.foldl (fun d p => (registerOp p.1 p.2 d).2) doc

/-- The spec-side predicate "name missing, empty, or whitespace-only" used by
the register validation claim. -/
def blankName : FormField String → Bool
  | .absent => true
  | .null => true
  | .val s => s == "" || jsTrim s == ""

/-- The item appended by a successful register, read off the request. -/
def registerItemOf (now : Nat) (req : RegisterRequest) : InventoryItem :=
  { id := Nat.repr now
    name := match req.inventory_name with | .val s => s | _ => ""
    description := req.description.orEmpty
    photoPath := req.file }

/-- Condition on a request under which it cannot write an empty `name`: an
update that supplies a name value supplies a non-empty one. -/
def Request.nameOk : Request → Bool
  | .update _ (FormField.val s) _ => !(s == "")
  | _ => true

/-! ## Helper lemmas -/

/-- Loading right after saving returns the saved collection. -/
theorem loadInventory_valid (l : List InventoryItem) :
    loadInventory (Document.valid l) = l := rfl

/-- Accumulator lemma for the digit-rendering loop behind `Nat.repr`. -/
theorem toDigitsCore_append (f : Nat) :
    ∀ (n : Nat) (ds : List Char), n < f →
      Nat.toDigitsCore 10 f n ds = Nat.toDigitsCore 10 f n [] ++ ds := by
  induction f with
  | zero => intro n ds h; exact absurd h (Nat.not_lt_zero n)
  | succ f ih =>
    intro n ds hf
    by_cases h10 : n / 10 = 0
    · simp [Nat.toDigitsCore, h10]
    · have hn : 0 < n := by omega
      have hlt : n / 10 < f := by
        have := Nat.div_lt_self hn (by norm_num : 1 < 10)
        omega
      simp only [Nat.toDigitsCore, h10, if_false]
      rw [ih (n / 10) _ hlt, ih (n / 10) [Nat.digitChar (n % 10)] hlt,
        List.append_assoc]
      simp

/-- Numeric value of a decimal digit character. -/
def digitVal (c : Char) : Nat := c.toNat - 48

/-- Numeric value of a most-significant-first decimal digit string. -/
def digitsVal (l : List Char) : Nat :=
  l.foldl (fun acc c => 10 * acc + digitVal c) 0

theorem digitVal_digitChar : ∀ d, d < 10 → digitVal (Nat.digitChar d) = d := by decide

theorem digitsVal_toDigitsCore (f : Nat) :
    ∀ n : Nat, n < f → digitsVal (Nat.toDigitsCore 10 f n []) = n := by
  induction f with
  | zero => intro n h; exact absurd h (Nat.not_lt_zero n)
  | succ f ih =>
    intro n hf
    by_cases h10 : n / 10 = 0
    · have hd := digitVal_digitChar (n % 10) (by omega)
      simp [Nat.toDigitsCore, h10, digitsVal, hd]
      omega
    · have hn : 0 < n := by omega
      have hlt : n / 10 < f := by
        have := Nat.div_lt_self hn (by norm_num : 1 < 10)
        omega
      simp only [Nat.toDigitsCore, h10, if_false]
      rw [toDigitsCore_append f (n / 10) [Nat.digitChar (n % 10)] hlt]
      have hd := digitVal_digitChar (n % 10) (by omega)
      simp only [digitsVal, List.foldl_append] at *
      rw [ih (n / 10) hlt]
      simp [hd]
      omega

/-- Reading the decimal rendering of `n` back as a number gives `n`. -/
theorem digitsVal_repr (n : Nat) : digitsVal (Nat.repr n).data = n := by
  show digitsVal ((Nat.toDigits 10 n).asString).data = n
  have h : ((Nat.toDigits 10 n).asString).data = Nat.toDigits 10 n := rfl
  rw [h]
  exact digitsVal_toDigitsCore (n + 1) n (Nat.lt_succ_self n)

/-- `Date.now().toString()` renders distinct timestamps as distinct strings. -/
theorem natRepr_injective {a b : Nat} (h : Nat.repr a = Nat.repr b) : a = b := by
  have ha := digitsVal_repr a
  rw [h, digitsVal_repr] at ha
  omega

/-- `Array.prototype.find` on a collection split around its first match. -/
theorem find?_append_cons (p : InventoryItem → Bool) (pre post : List InventoryItem)
    (item : InventoryItem) (hpre : ∀ x ∈ pre, p x = false) (hit : p item = true) :
    (pre ++ item :: post).find? p = some item := by
  induction pre with
  | nil => simpa using List.find?_cons_of_pos post hit
  | cons a l ih =>
    have ha := hpre a (List.mem_cons_self a l)
    rw [List.cons_append, List.find?_cons_of_neg _ (by simp [ha])]
    exact ih fun x hx => hpre x (List.mem_cons_of_mem a hx)

/-- `updateFirst` on a collection split around its first match. -/
theorem updateFirst_append_cons (rid : String) (f : InventoryItem → InventoryItem)
    (pre post : List InventoryItem) (item : InventoryItem)
    (hpre : ∀ x ∈ pre, (x.id == rid) = false) (hit : (item.id == rid) = true) :
    updateFirst rid f (pre ++ item :: post) = pre ++ f item :: post := by
  induction pre with
  | nil => simp [updateFirst, hit]
  | cons a l ih =>
    have ha := hpre a (List.mem_cons_self a l)
    simp only [List.cons_append, updateFirst, ha, Bool.false_eq_true, if_false,
      List.append_eq]
    rw [ih fun x hx => hpre x (List.mem_cons_of_mem a hx)]

/-- Members of an updated collection are old members or the image of one. -/
theorem mem_updateFirst {rid : String} {f : InventoryItem → InventoryItem}
    {l : List InventoryItem} {y : InventoryItem} (h : y ∈ updateFirst rid f l) :
    y ∈ l ∨ ∃ x ∈ l, y = f x := by
  induction l with
  | nil => simp [updateFirst] at h
  | cons a xs ih =>
    by_cases hc : (a.id == rid) = true
    · simp only [updateFirst, hc, if_true] at h
      rcases List.mem_cons.mp h with h | h
      · exact Or.inr ⟨a, List.mem_cons_self a xs, h⟩
      · exact Or.inl (List.mem_cons_of_mem a h)
    · simp only [updateFirst, hc, if_false] at h
      rcases List.mem_cons.mp h with h | h
      · exact Or.inl (by simp [h])
      · rcases ih h with h' | ⟨x, hx, hy⟩
        · exact Or.inl (List.mem_cons_of_mem a h')
        · exact Or.inr ⟨x, List.mem_cons_of_mem a hx, hy⟩

/-- Members of a collection after `splice` removal were members before. -/
theorem mem_removeFirst {rid : String} {l : List InventoryItem} {y : InventoryItem}
    (h : y ∈ removeFirst rid l) : y ∈ l := by
  induction l with
  | nil => simp [removeFirst] at h
  | cons a xs ih =>
    by_cases hc : (a.id == rid) = true
    · simp only [removeFirst, hc, if_true] at h
      exact List.mem_cons_of_mem a h
    · simp only [removeFirst, hc, if_false] at h
      rcases List.mem_cons.mp h with h | h
      · exact by simp [h]
      · exact List.mem_cons_of_mem a (ih h)

/-- `x ?? y` on an absent-or-value field is `Option.getD`. -/
theorem nullishOr_ofOption (o : Option String) (d : String) :
    (FormField.ofOption o).nullishOr d = o.getD d := by
  cases o <;> rfl

/-! ## Claim theorems -/

/-- Claim C3: `loadInventory` is total and never surfaces an error: a missing,
unreadable or non-JSON backing document yields the empty collection, and a
valid serialized collection is returned as is. -/
theorem loadInventory_total :
    loadInventory Document.missing = []
  ∧ loadInventory Document.unreadable = []
  ∧ loadInventory Document.notJson = []
  ∧ ∀ items, loadInventory (Document.valid items) = items :=
  ⟨rfl, rfl, rfl, fun _ => rfl⟩

/-- Claim C4: a register request whose `inventory_name` is missing, empty or
whitespace-only fails with `InvalidInput` and leaves the persisted document
untouched; with a name that is non-empty after trimming, exactly one new item
is appended to the loaded collection and the result is persisted. -/
theorem register_validation (now : Nat) (req : RegisterRequest) (doc : Document) :
    (blankName req.inventory_name = true →
      registerOp now req doc = (RegisterResult.invalidInput, doc))
  ∧ ∀ s, req.inventory_name = FormField.val s →
      blankName req.inventory_name = false →
      registerOp now req doc =
        (RegisterResult.created
          { message := "Created"
            id := Nat.repr now
            name := s
            description := req.description.orEmpty
            photoUrl := photoUrlOf req.protocol req.host
              (registerItem now s req.description req.file) },
         Document.valid (loadInventory doc ++ [registerItem now s req.description req.file])) := by
  constructor
  · intro hb
    cases hreq : req.inventory_name with
    | absent => simp [registerOp, hreq]
    | null => simp [registerOp, hreq]
    | val s =>
      rw [hreq] at hb
      simp only [blankName] at hb
      simp [registerOp, hreq, hb]
  · intro s hs hb
    rw [hs] at hb
    simp only [blankName] at hb
    simp [registerOp, hs, hb, saveInventory, registerItem]

/-- Witness for C4: a whitespace-only name is rejected without touching the
document; the name `Drill` is appended and persisted. -/
theorem register_validation_witness :
    (registerOp 7
      { inventory_name := FormField.val "   ", description := FormField.absent,
        file := none, protocol := "http", host := "h" } (Document.valid [])
      = (RegisterResult.invalidInput, Document.valid []))
  ∧ registerOp 7
      { inventory_name := FormField.val "Drill", description := FormField.absent,
        file := none, protocol := "http", host := "h" } (Document.valid [])
      = (RegisterResult.created
          { message := "Created", id := "7", name := "Drill",
            description := "", photoUrl := none },
         Document.valid [{ id := "7", name := "Drill", description := "",
                           photoPath := none }]) := by
  constructor
  · exact (register_validation 7 _ _).1 (by decide)
  · exact (register_validation 7 _ _).2 "Drill" rfl (by decide)

/-- Claim C7: registering name `Drill`, description `cordless`, no photo, on
the empty collection and then listing returns exactly one entry with those
values and a `null` photo URL. -/
theorem register_list_roundtrip (now : Nat) (protocol host : String) :
    listOp protocol host
      (registerOp now
        { inventory_name := FormField.val "Drill"
          description := FormField.val "cordless"
          file := none, protocol := protocol, host := host }
        (Document.valid [])).2
    = [{ id := Nat.repr now, name := "Drill", description := "cordless",
         photoUrl := none }] := rfl

/-- Claim C8: register persists the submitted name verbatim: whenever the
name is non-empty after trimming, the stored item's `name` is the raw
submitted string, whitespace included. -/
theorem register_stores_name_verbatim (now : Nat) (s : String)
    (descF : FormField String) (file : Option String) (protocol host : String)
    (doc : Document) (h : jsTrim s ≠ "") :
    loadInventory (registerOp now
      { inventory_name := FormField.val s, description := descF,
        file := file, protocol := protocol, host := host } doc).2
      = loadInventory doc ++ [registerItem now s descF file]
    ∧ (registerItem now s descF file).name = s := by
  have hne : (s == "") = false := by
    rcases eq_or_ne s "" with rfl | hs
    · exact absurd rfl h
    · simp [hs]
  have ht : (jsTrim s == "") = false := by simp [h]
  constructor
  · simp [registerOp, hne, ht, saveInventory, loadInventory]
  · rfl

/-- Witness for C8: registering with name `" Drill "` stores the name with
its leading and trailing spaces. -/
theorem register_stores_name_verbatim_witness :
    jsTrim " Drill " ≠ ""
  ∧ loadInventory (registerOp 9
      { inventory_name := FormField.val " Drill ", description := FormField.absent,
        file := none, protocol := "http", host := "h" } (Document.valid [])).2
      = [{ id := "9", name := " Drill ", description := "", photoPath := none }] :=
  ⟨by decide,
   (register_stores_name_verbatim 9 " Drill " FormField.absent none "http" "h"
      (Document.valid []) (by decide)).1⟩

/-- Claim C5: on an existing item, update replaces `name` and `description`
exactly when provided and keeps them when absent, leaves `id`, `photoPath`
and every other item unchanged, and persists; on a missing id it fails
`NotFound` without touching the document. -/
theorem update_fields_correct (rid : String) (nameO descO : Option String)
    (doc : Document) :
    (∀ pre item post,
      loadInventory doc = pre ++ item :: post →
      (∀ x ∈ pre, x.id ≠ rid) → item.id = rid →
      updateOp rid (FormField.ofOption nameO) (FormField.ofOption descO) doc =
        (UpdateResult.ok
          { message := "Updated", id := item.id,
            name := nameO.getD item.name,
            description := descO.getD item.description },
         Document.valid (pre ++
           { item with name := nameO.getD item.name,
                       description := descO.getD item.description } :: post)))
  ∧ ((∀ x ∈ loadInventory doc, x.id ≠ rid) →
      updateOp rid (FormField.ofOption nameO) (FormField.ofOption descO) doc
        = (UpdateResult.notFound, doc)) := by
  constructor
  · intro pre item post hsplit hpre hid
    have hpre' : ∀ x ∈ pre, (x.id == rid) = false := fun x hx =>
      beq_eq_false_iff_ne.mpr (hpre x hx)
    have hit : (item.id == rid) = true := beq_iff_eq.mpr hid
    have hfind := find?_append_cons (fun x => x.id == rid) pre post item hpre' hit
    have hupd := updateFirst_append_cons rid
      (applyUpdate (FormField.ofOption nameO) (FormField.ofOption descO))
      pre post item hpre' hit
    simp only [updateOp, hsplit, hfind, hupd, saveInventory]
    simp [applyUpdate, nullishOr_ofOption]
  · intro hnone
    have hfind : (loadInventory doc).find? (fun x => x.id == rid) = none :=
      List.find?_eq_none.mpr fun x hx => by simp [hnone x hx]
    simp [updateOp, hfind]

/-- Witness for C5: updating item `2` with only a description replaces the
description, keeps the name, and leaves item `1` alone; updating a missing
id `9` is `NotFound` and leaves the document untouched. -/
theorem update_fields_correct_witness :
    (updateOp "2" (FormField.ofOption none) (FormField.ofOption (some "newd"))
      (Document.valid
        [{ id := "1", name := "A", description := "a", photoPath := none },
         { id := "2", name := "B", description := "b", photoPath := none }])
      = (UpdateResult.ok { message := "Updated", id := "2", name := "B",
                           description := "newd" },
         Document.valid
           [{ id := "1", name := "A", description := "a", photoPath := none },
            { id := "2", name := "B", description := "newd", photoPath := none }]))
  ∧ updateOp "9" (FormField.ofOption none) (FormField.ofOption none)
      (Document.valid [{ id := "1", name := "A", description := "a", photoPath := none }])
      = (UpdateResult.notFound,
         Document.valid [{ id := "1", name := "A", description := "a", photoPath := none }]) := by
  constructor
  · exact (update_fields_correct "2" none (some "newd") _).1
      [{ id := "1", name := "A", description := "a", photoPath := none }]
      { id := "2", name := "B", description := "b", photoPath := none } []
      rfl (by decide) rfl
  · exact (update_fields_correct "9" none none _).2 (by decide)

/-- Claim C9: in update, an explicit JSON `null` behaves like an absent
field (the current value is kept, and the operation coincides with the
all-absent one), while an explicit `""` replaces the field with the empty
string. -/
theorem update_null_vs_empty (rid : String) (doc : Document)
    (pre post : List InventoryItem) (item : InventoryItem)
    (hsplit : loadInventory doc = pre ++ item :: post)
    (hpre : ∀ x ∈ pre, x.id ≠ rid) (hid : item.id = rid) :
    updateOp rid FormField.null FormField.null doc
      = updateOp rid FormField.absent FormField.absent doc
  ∧ loadInventory (updateOp rid FormField.null FormField.null doc).2
      = pre ++ item :: post
  ∧ loadInventory (updateOp rid (FormField.val "") FormField.null doc).2
      = pre ++ { item with name := "" } :: post
  ∧ loadInventory (updateOp rid FormField.null (FormField.val "") doc).2
      = pre ++ { item with description := "" } :: post := by
  have hpre' : ∀ x ∈ pre, (x.id == rid) = false := fun x hx =>
    beq_eq_false_iff_ne.mpr (hpre x hx)
  have hit : (item.id == rid) = true := beq_iff_eq.mpr hid
  have key : ∀ nameF descF : FormField String,
      updateOp rid nameF descF doc =
        (UpdateResult.ok
          { message := "Updated", id := (applyUpdate nameF descF item).id,
            name := (applyUpdate nameF descF item).name,
            description := (applyUpdate nameF descF item).description },
         Document.valid (pre ++ applyUpdate nameF descF item :: post)) := by
    intro nameF descF
    have hfind := find?_append_cons (fun x => x.id == rid) pre post item hpre' hit
    have hupd := updateFirst_append_cons rid (applyUpdate nameF descF) pre post item hpre' hit
    simp only [updateOp, hsplit, hfind, hupd, saveInventory]
  refine ⟨?_, ?_, ?_, ?_⟩
  · rw [key, key]; rfl
  · rw [key]; rfl
  · rw [key]; rfl
  · rw [key]; rfl

/-- Witness for C9: on a one-item collection, `null` fields leave the item
as it was (same result as an empty body), while an explicit `""` empties the
corresponding field. -/
theorem update_null_vs_empty_witness :
    (updateOp "1" FormField.null FormField.null
        (Document.valid [{ id := "1", name := "A", description := "a", photoPath := none }])
      = updateOp "1" FormField.absent FormField.absent
        (Document.valid [{ id := "1", name := "A", description := "a", photoPath := none }]))
  ∧ loadInventory (updateOp "1" FormField.null FormField.null
        (Document.valid [{ id := "1", name := "A", description := "a", photoPath := none }])).2
      = [{ id := "1", name := "A", description := "a", photoPath := none }]
  ∧ loadInventory (updateOp "1" (FormField.val "") FormField.null
        (Document.valid [{ id := "1", name := "A", description := "a", photoPath := none }])).2
      = [{ id := "1", name := "", description := "a", photoPath := none }]
  ∧ loadInventory (updateOp "1" FormField.null (FormField.val "")
        (Document.valid [{ id := "1", name := "A", description := "a", photoPath := none }])).2
      = [{ id := "1", name := "A", description := "", photoPath := none }] :=
  update_null_vs_empty "1"
    (Document.valid [{ id := "1", name := "A", description := "a", photoPath := none }])
    [] [] { id := "1", name := "A", description := "a", photoPath := none }
    rfl (by decide) rfl

/-- Claim C6: search never mutates the persisted collection (the document —
and hence every stored description — is exactly what it was); on a found
item the returned description is the stored one with the photo-URL note
appended exactly when the flag is truthy and the item has a photo, and
`hasPhoto` is true exactly when the item has a `photoPath` (photo paths
assigned by the store are non-empty). -/
theorem search_frame (protocol host rid : String) (hasPhotoF : FormField String)
    (doc : Document) :
    (∀ idF : FormField String, (searchOp protocol host idF hasPhotoF doc).2 = doc)
  ∧ ∀ item, (loadInventory doc).find? (fun x => x.id == rid) = some item →
      (∀ p, item.photoPath = some p → p ≠ "") →
      (searchOp protocol host (FormField.val rid) hasPhotoF doc).1 =
        SearchResult.ok
          { id := item.id, name := item.name,
            description :=
              if hasPhotoF.truthy && item.photoPath.isSome then
                item.description ++ "\nPhoto: " ++ buildPhotoUrl protocol host rid
              else item.description,
            hasPhoto := item.photoPath.isSome } := by
  constructor
  · intro idF
    cases idF with
    | absent => rfl
    | null => rfl
    | val i =>
      simp only [searchOp]
      cases hfind : (loadInventory doc).find? (fun x => x.id == i) with
      | none => simp [hfind]
      | some item => simp [hfind]
  · intro item hfind hpath
    have hopt : optTruthy item.photoPath = item.photoPath.isSome := by
      cases hp : item.photoPath with
      | none => rfl
      | some p => simp [optTruthy, hpath p hp]
    simp [searchOp, hfind, hopt]

/-- Witness for C6: a search with a truthy flag on an item with a photo
returns the annotated description, reports `hasPhoto`, and leaves the
document untouched. -/
theorem search_frame_witness :
    (searchOp "http" "h" (FormField.val "1") (FormField.val "yes")
        (Document.valid
          [{ id := "1", name := "A", description := "d", photoPath := some "/p" }])).2
      = Document.valid
          [{ id := "1", name := "A", description := "d", photoPath := some "/p" }]
  ∧ (searchOp "http" "h" (FormField.val "1") (FormField.val "yes")
        (Document.valid
          [{ id := "1", name := "A", description := "d", photoPath := some "/p" }])).1
      = SearchResult.ok
          { id := "1", name := "A",
            description := "d\nPhoto: http://h/inventory/1/photo",
            hasPhoto := true } := by
  have h := search_frame "http" "h" "1" (FormField.val "yes")
    (Document.valid
      [{ id := "1", name := "A", description := "d", photoPath := some "/p" }])
  exact ⟨h.1 (FormField.val "1"),
    h.2 { id := "1", name := "A", description := "d", photoPath := some "/p" }
      (by decide) (by decide)⟩

/-- Claim C10: the search `has_photo` flag is JS truthiness of the submitted
form string: on an item with a photo, any non-empty string (including
`"false"` and `"0"`) appends the photo-URL note, while an absent or
empty-string flag does not. -/
theorem search_flag_truthiness (protocol host rid : String) (doc : Document)
    (item : InventoryItem) (p : String)
    (hfind : (loadInventory doc).find? (fun x => x.id == rid) = some item)
    (hphoto : item.photoPath = some p) (hp : p ≠ "") :
    (∀ s, s ≠ "" →
      (searchOp protocol host (FormField.val rid) (FormField.val s) doc).1 =
        SearchResult.ok
          { id := item.id, name := item.name,
            description := item.description ++ "\nPhoto: "
              ++ buildPhotoUrl protocol host rid,
            hasPhoto := true })
  ∧ ((searchOp protocol host (FormField.val rid) FormField.absent doc).1 =
      SearchResult.ok
        { id := item.id, name := item.name,
          description := item.description, hasPhoto := true })
  ∧ ((searchOp protocol host (FormField.val rid) (FormField.val "") doc).1 =
      SearchResult.ok
        { id := item.id, name := item.name,
          description := item.description, hasPhoto := true }) := by
  have hopt : optTruthy item.photoPath = true := by simp [hphoto, optTruthy, hp]
  refine ⟨?_, ?_, ?_⟩
  · intro s hs
    have hts : FormField.truthy (FormField.val s) = true := by
      simp [FormField.truthy, hs]
    simp [searchOp, hfind, hopt, hts]
  · simp [searchOp, hfind, hopt, FormField.truthy]
  · simp [searchOp, hfind, hopt, FormField.truthy]

/-- Witness for C10: on an item with a photo, the strings `"false"` and
`"0"` both count as a set flag, while an absent or empty flag does not. -/
theorem search_flag_truthiness_witness :
    ((searchOp "http" "h" (FormField.val "1") (FormField.val "false")
        (Document.valid
          [{ id := "1", name := "A", description := "d", photoPath := some "/p" }])).1
      = SearchResult.ok
          { id := "1", name := "A",
            description := "d\nPhoto: http://h/inventory/1/photo", hasPhoto := true })
  ∧ ((searchOp "http" "h" (FormField.val "1") (FormField.val "0")
        (Document.valid
          [{ id := "1", name := "A", description := "d", photoPath := some "/p" }])).1
      = SearchResult.ok
          { id := "1", name := "A",
            description := "d\nPhoto: http://h/inventory/1/photo", hasPhoto := true })
  ∧ ((searchOp "http" "h" (FormField.val "1") FormField.absent
        (Document.valid
          [{ id := "1", name := "A", description := "d", photoPath := some "/p" }])).1
      = SearchResult.ok
          { id := "1", name := "A", description := "d", hasPhoto := true })
  ∧ ((searchOp "http" "h" (FormField.val "1") (FormField.val "")
        (Document.valid
          [{ id := "1", name := "A", description := "d", photoPath := some "/p" }])).1
      = SearchResult.ok
          { id := "1", name := "A", description := "d", hasPhoto := true }) := by
  have h := search_flag_truthiness "http" "h" "1"
    (Document.valid
      [{ id := "1", name := "A", description := "d", photoPath := some "/p" }])
    { id := "1", name := "A", description := "d", photoPath := some "/p" }
    "/p" (by decide) rfl (by decide)
  exact ⟨h.1 "false" (by decide), h.1 "0" (by decide), h.2.1, h.2.2⟩

/-- One handled request preserves "every stored name is non-empty", provided
an update that supplies a name supplies a non-empty one. -/
theorem step_preserves_names (r : Request) (doc : Document)
    (h0 : ∀ item ∈ loadInventory doc, item.name ≠ "")
    (hok : r.nameOk = true) :
    ∀ item ∈ loadInventory (step r doc), item.name ≠ "" := by
  cases r with
  | register now req =>
    cases hreq : req.inventory_name with
    | absent => simpa [step, registerOp, hreq] using h0
    | null => simpa [step, registerOp, hreq] using h0
    | val s =>
      by_cases hc : (s == "" || jsTrim s == "") = true
      · simpa [step, registerOp, hreq, hc] using h0
      · intro item hitem
        have hs : s ≠ "" := by
          intro h
          rw [h] at hc
          exact hc (by decide)
        simp [step, registerOp, hreq, hc, saveInventory,
          loadInventory_valid] at hitem
        rcases hitem with h | h
        · exact h0 item h
        · rw [h]; exact hs
  | update rid nameF descF =>
    intro item hitem
    simp only [step, updateOp] at hitem
    cases hfind : (loadInventory doc).find? (fun x => x.id == rid) with
    | none =>
      rw [hfind] at hitem
      exact h0 item hitem
    | some it =>
      rw [hfind] at hitem
      simp only [saveInventory, loadInventory_valid] at hitem
      rcases mem_updateFirst hitem with h | ⟨x, hx, hy⟩
      · exact h0 item h
      · rw [hy]
        cases hn : nameF with
        | val s =>
          rw [hn] at hok
          simp only [Request.nameOk, Bool.not_eq_eq_eq_not, Bool.not_true,
            beq_eq_false_iff_ne, ne_eq] at hok
          simpa [applyUpdate, FormField.nullishOr] using hok
        | absent => simpa [applyUpdate, FormField.nullishOr] using h0 x hx
        | null => simpa [applyUpdate, FormField.nullishOr] using h0 x hx
  | replacePhoto proto hst rid file =>
    intro item hitem
    simp only [step, replacePhotoOp] at hitem
    cases hfind : (loadInventory doc).find? (fun x => x.id == rid) with
    | none =>
      rw [hfind] at hitem
      exact h0 item hitem
    | some it =>
      rw [hfind] at hitem
      cases file with
      | none => exact h0 item hitem
      | some p =>
        simp only [saveInventory, loadInventory_valid] at hitem
        rcases mem_updateFirst hitem with h | ⟨x, hx, hy⟩
        · exact h0 item h
        · rw [hy]; simpa using h0 x hx
  | delete rid =>
    intro item hitem
    simp only [step, deleteOp] at hitem
    cases hfind : (loadInventory doc).find? (fun x => x.id == rid) with
    | none =>
      rw [hfind] at hitem
      exact h0 item hitem
    | some it =>
      rw [hfind] at hitem
      simp only [saveInventory, loadInventory_valid] at hitem
      exact h0 item (mem_removeFirst hitem)

/-- Claim C2 (amended): after any sequence of register, update, replace-photo
and delete requests starting from a document whose stored names are all
non-empty, every persisted item still has a non-empty name — provided every
update request that supplies a `name` value supplies a non-empty one (the
source does not itself forbid an explicit empty name on update). -/
theorem names_nonempty_invariant (rs : List Request) (doc : Document)
    (h0 : ∀ item ∈ loadInventory doc, item.name ≠ "")
    (hok : ∀ r ∈ rs, r.nameOk = true) :
    ∀ item ∈ loadInventory (run rs doc), item.name ≠ "" := by
  induction rs generalizing doc with
  | nil => simpa [run] using h0
  | cons r rest ih =>
    have hr := hok r (List.mem_cons_self r rest)
    have hrest : ∀ x ∈ rest, x.nameOk = true := fun x hx =>
      hok x (List.mem_cons_of_mem r hx)
    have hstep := step_preserves_names r doc h0 hr
    simpa [run, List.foldl_cons] using ih (step r doc) hstep hrest

/-- Witness for C2 (amended): a register / update / replace-photo / delete
sequence whose update carries a non-empty name keeps the surviving item's
name non-empty. -/
theorem names_nonempty_invariant_witness :
    ({ id := "3", name := "Drill2", description := "", photoPath := some "/p" }
        : InventoryItem).name ≠ "" :=
  names_nonempty_invariant
    [Request.register 3
      { inventory_name := FormField.val "Drill", description := FormField.absent,
        file := none, protocol := "http", host := "h" },
     Request.update "3" (FormField.val "Drill2") FormField.absent,
     Request.replacePhoto "http" "h" "3" (some "/p"),
     Request.delete "9"]
    (Document.valid []) (by decide) (by decide)
    { id := "3", name := "Drill2", description := "", photoPath := some "/p" }
    (by decide)

/-- Counterexample to C2 as stated: registering `Drill` and then updating it
with an explicit empty `name` leaves a persisted item whose name is the
empty string. -/
theorem update_can_persist_empty_name :
    (loadInventory (run
      [Request.register 3
        { inventory_name := FormField.val "Drill", description := FormField.absent,
          file := none, protocol := "http", host := "h" },
       Request.update "3" (FormField.val "") FormField.absent]
      (Document.valid []))).map InventoryItem.name = [""] := by decide

/-- A register request with a usable name appends exactly its item. -/
theorem registerOp_snd_of_valid (now : Nat) (req : RegisterRequest) (doc : Document)
    (h : blankName req.inventory_name = false) :
    (registerOp now req doc).2
      = Document.valid (loadInventory doc ++ [registerItemOf now req]) := by
  cases hreq : req.inventory_name with
  | absent => rw [hreq] at h; simp [blankName] at h
  | null => rw [hreq] at h; simp [blankName] at h
  | val s =>
    rw [hreq] at h
    simp only [blankName] at h
    simp [registerOp, hreq, h, saveInventory, registerItemOf, registerItem]

/-- Register requests with usable names append their items in order. -/
theorem registerRun_valid (l : List (Nat × RegisterRequest)) :
    ∀ items : List InventoryItem,
      (∀ p ∈ l, blankName p.2.inventory_name = false) →
      loadInventory (registerRun l (Document.valid items))
        = items ++ l.map (fun p => registerItemOf p.1 p.2) := by
  induction l with
  | nil => intro items _; simp [registerRun, loadInventory]
  | cons q rest ih =>
    intro items hv
    have hq := hv q (List.mem_cons_self q rest)
    have hstep := registerOp_snd_of_valid q.1 q.2 (Document.valid items) hq
    have hrun : registerRun (q :: rest) (Document.valid items)
        = registerRun rest (Document.valid (items ++ [registerItemOf q.1 q.2])) := by
      simp [registerRun, List.foldl_cons, hstep, loadInventory_valid]
    rw [hrun, ih _ (fun p hp => hv p (List.mem_cons_of_mem q hp))]
    simp

/-- Claim C1 (amended): starting from the empty collection, a sequence of
successful register requests stamps each item with the decimal rendering of
its `Date.now()` timestamp, so the stored ids are pairwise distinct provided
the registrations occur at strictly increasing millisecond timestamps. -/
theorem register_ids_distinct (l : List (Nat × RegisterRequest))
    (hv : ∀ p ∈ l, blankName p.2.inventory_name = false)
    (hmono : (l.map Prod.fst).Pairwise (· < ·)) :
    (loadInventory (registerRun l (Document.valid []))).map InventoryItem.id
      = l.map (fun p => Nat.repr p.1)
  ∧ ((loadInventory (registerRun l (Document.valid []))).map
      InventoryItem.id).Pairwise (· ≠ ·) := by
  have hids : (loadInventory (registerRun l (Document.valid []))).map InventoryItem.id
      = l.map (fun p => Nat.repr p.1) := by
    rw [registerRun_valid l [] hv, List.nil_append, List.map_map]
    rfl
  refine ⟨hids, ?_⟩
  rw [hids]
  have hmm : l.map (fun p => Nat.repr p.1) = (l.map Prod.fst).map Nat.repr := by
    rw [List.map_map]
    rfl
  rw [hmm]
  exact hmono.map Nat.repr
    (fun a b hab hc => absurd (natRepr_injective hc) (Nat.ne_of_lt hab))

/-- Witness for C1 (amended): registering at timestamps 1 then 2 yields the
ids `"1"` and `"2"`, which are pairwise distinct. -/
theorem register_ids_distinct_witness :
    (loadInventory (registerRun
        [(1, { inventory_name := FormField.val "A", description := FormField.absent,
               file := none, protocol := "http", host := "h" }),
         (2, { inventory_name := FormField.val "B", description := FormField.absent,
               file := none, protocol := "http", host := "h" })]
        (Document.valid []))).map InventoryItem.id = ["1", "2"]
  ∧ (["1", "2"] : List String).Pairwise (· ≠ ·) :=
  register_ids_distinct
    [(1, { inventory_name := FormField.val "A", description := FormField.absent,
           file := none, protocol := "http", host := "h" }),
     (2, { inventory_name := FormField.val "B", description := FormField.absent,
           file := none, protocol := "http", host := "h" })]
    (by decide) (by decide)

/-- Counterexample to C1 as stated: two register requests in the same
millisecond (`Date.now() = 5` twice) both store the id `"5"`, so the ids of
the persisted collection are not pairwise distinct. -/
theorem register_same_millisecond_duplicate_ids :
    (loadInventory (registerRun
        [(5, { inventory_name := FormField.val "A", description := FormField.absent,
               file := none, protocol := "http", host := "h" }),
         (5, { inventory_name := FormField.val "B", description := FormField.absent,
               file := none, protocol := "http", host := "h" })]
        (Document.valid []))).map InventoryItem.id = ["5", "5"]
  ∧ ¬ ((loadInventory (registerRun
        [(5, { inventory_name := FormField.val "A", description := FormField.absent,
               file := none, protocol := "http", host := "h" }),
         (5, { inventory_name := FormField.val "B", description := FormField.absent,
               file := none, protocol := "http", host := "h" })]
        (Document.valid []))).map InventoryItem.id).Pairwise (· ≠ ·) :=
  ⟨by decide, by decide⟩
